import Mathlib

/-!
# Verification of the tutanota `EntityRestClient`

Shallow embedding of `src/api/worker/rest/EntityRestClient.js`.

Effects are modelled by a writer-plus-exception monad `M`: a computation is a
pair of a result (`Except Err α`) and the ordered list of observable events it
performed (network requests and collaborator calls).  The external
collaborators (transport, type-model registry, crypto facade, instance mapper)
are oracles collected in an `Env` record; each call to one is logged as an
`Event`, so claims such as "no network request is issued" are statable as
facts about the event log.  Asynchronous `promiseMap` pipelines are modelled
sequentially (their result order is the input order regardless of concurrency).
-/

namespace ERC

/-- HTTP methods used by the client (`HttpMethod` in the source). -/
inductive HttpMethod where
  | GET | POST | PUT | DELETE
deriving DecidableEq, Repr

/-- Media types (`MediaType` in the source); only `Json` is used here. -/
inductive MediaType where
  | Json | Binary | Text
deriving DecidableEq, Repr

/-- `TypeRef`: application namespace plus type name. -/
structure TypeRef where
  app : String
  type : String
deriving DecidableEq, Repr

/-- The shape kinds of `Type` from `EntityConstants`. -/
inductive TypeKind where
  | Element | ListElement | Aggregated | DataTransferType
deriving DecidableEq, Repr

/-- `TypeModel`: the schema descriptor the registry resolves a `TypeRef` to.
Only the fields this client reads are modelled. -/
structure TypeModel where
  type : TypeKind
  version : String
deriving DecidableEq, Repr

/-- `EntityId`: a bare element id for `Element` types, or a
`(listId, elementId)` pair for `ListElement` types. -/
inductive EntityId where
  | single (id : String)
  | pair (listId : String) (elementId : String)
deriving DecidableEq, Repr

/-- An entity instance (both the wire form and the in-memory form share this
abstract carrier: JS is untyped and the same value flows through both roles).
`payload` abstracts the field content; `errorsMarker` models the `_errors`
property set when decryption ran without a session key. -/
structure Instance where
  typeRef : TypeRef
  id : Option EntityId
  payload : Nat
  errorsMarker : Bool := false
deriving DecidableEq, Repr

/-- Symmetric session keys, abstract. -/
abbrev Key : Type := Nat

/-- `Params`: a JS object of string keys and values, as an association list.
JS objects keep at most one entry per key; the operations below maintain
that invariant. -/
abbrev Params : Type := List (String × String)

/-- The errors this layer distinguishes.  `ProgrammingError` stands for a
plain `throw new Error(...)` (caller-contract violation). -/
inductive Err where
  | NotAuthenticatedError (msg : String)
  | PayloadTooLargeError (msg : String)
  | SessionKeyNotFoundError (msg : String)
  | ProgrammingError (msg : String)
  | SetupMultipleError (msg : String) (errors : List Err) (failedInstances : List Instance)
  | Other (tag : Nat)

/-- A usage/contract error in the spec's taxonomy. -/
def Err.isUsage : Err → Bool
  | .ProgrammingError _ => true
  | _ => false

/-- The class test done by `ofClass(SessionKeyNotFoundError, ...)`. -/
def Err.isSessionKeyNotFound : Err → Bool
  | .SessionKeyNotFoundError _ => true
  | _ => false

/-- The class test done by `e instanceof PayloadTooLargeError`. -/
def Err.isPayloadTooLarge : Err → Bool
  | .PayloadTooLargeError _ => true
  | _ => false

/-- One HTTP request handed to the transport (`RestClient.request`). -/
structure Request where
  path : String
  method : HttpMethod
  queryParams : Params
  headers : Params
  body : Option String
  mediaType : Option MediaType
deriving DecidableEq, Repr

/-- Observable events: network requests and collaborator calls. -/
inductive Event where
  | req (r : Request)
  | resolveType (t : TypeRef)
  | resolveKey (tm : TypeModel) (inst : Instance)
  | newOwnerKey (tm : TypeModel) (inst : Instance)
  | encrypt (tm : TypeModel) (inst : Instance) (k : Key)
  | migrateRaw (t : TypeRef) (inst : Instance)
  | migrateInstance (inst : Instance)
deriving DecidableEq, Repr

/-- The network requests recorded in an event log, in order. -/
def requestsOf (log : List Event) : List Request :=
  log.filterMap fun e => match e with
    | .req r => some r
    | _ => none

/-- The environment of external collaborators, as oracles. -/
structure Env where
  resolveTypeReference : TypeRef → Except Err TypeModel
  authHeaders : Params
  request : Request → Except Err String
  applyMigrations : TypeRef → Instance → Except Err Instance
  applyMigrationsForInstance : Instance → Except Err Instance
  resolveSessionKey : TypeModel → Instance → Except Err Key
  setNewOwnerEncSessionKey : TypeModel → Instance → Key
  encryptAndMapToLiteral : TypeModel → Instance → Key → Except Err Instance
  parseInstance : String → Instance
  parseInstanceList : String → List Instance
  parseGeneratedId : String → String
  parseGeneratedIds : String → List String
  stringify : Instance → String
  stringifyList : List Instance → String
  loadMultipleLimit : Nat
  postMultipleLimit : Nat

/-- The effect monad: result plus ordered event log.  The log records what
happened before the result was produced, so it survives errors. -/
def M (α : Type) : Type := Except Err α × List Event

namespace M

/-- Return. -/
def pure (a : α) : M α := (Except.ok a, [])

/-- Sequencing: on success continue, concatenating logs; an error keeps the
log accumulated so far. -/
def bind (m : M α) (f : α → M β) : M β :=
  match m with
  | (Except.ok a, l) => ((f a).1, l ++ (f a).2)
  | (Except.error e, l) => (Except.error e, l)

/-- `throw`. -/
def throwE (e : Err) : M α := (Except.error e, [])

/-- Lift a pure `Except` computation (no events). -/
def ofExcept (x : Except Err α) : M α := (x, [])

/-- `.catch(handler)`: handle any error, keeping the failed computation's log
before the handler's. -/
def catchAll (m : M α) (h : Err → M α) : M α :=
  match m with
  | (Except.ok a, l) => (Except.ok a, l)
  | (Except.error e, l) => ((h e).1, l ++ (h e).2)

/-- `.catch(ofClass(C, handler))`: handle only errors of class `p`,
rethrowing the rest. -/
def catchOnly (p : Err → Bool) (m : M α) (h : Err → M α) : M α :=
  catchAll m (fun e => if p e then h e else throwE e)

@[simp] theorem bind_ok (a : α) (l : List Event) (f : α → M β) :
    bind (Except.ok a, l) f = ((f a).1, l ++ (f a).2) := rfl

@[simp] theorem bind_error (e : Err) (l : List Event) (f : α → M β) :
    bind (Except.error e, l) f = (Except.error e, l) := rfl

@[simp] theorem catchAll_ok (a : α) (l : List Event) (h : Err → M α) :
    catchAll (Except.ok a, l) h = (Except.ok a, l) := rfl

@[simp] theorem catchAll_error (e : Err) (l : List Event) (h : Err → M α) :
    catchAll (Except.error e, l) h = ((h e).1, l ++ (h e).2) := rfl

@[simp] theorem pure_def (a : α) : (pure a : M α) = (Except.ok a, []) := rfl

@[simp] theorem throwE_def (e : Err) : (throwE e : M α) = (Except.error e, []) := rfl

@[simp] theorem ofExcept_def (x : Except Err α) : ofExcept x = (x, []) := rfl

end M

/-- Logged call to the transport. -/
def callRequest (env : Env) (r : Request) : M String :=
  (env.request r, [Event.req r])

/-- Logged call to `resolveTypeReference`. -/
def callResolveType (env : Env) (t : TypeRef) : M TypeModel :=
  (env.resolveTypeReference t, [Event.resolveType t])

/-- Logged call to `crypto.resolveSessionKey`. -/
def callResolveKey (env : Env) (tm : TypeModel) (inst : Instance) : M Key :=
  (env.resolveSessionKey tm inst, [Event.resolveKey tm inst])

/-- Logged call to `crypto.setNewOwnerEncSessionKey` (synchronous, total). -/
def callNewOwnerKey (env : Env) (tm : TypeModel) (inst : Instance) : M Key :=
  (Except.ok (env.setNewOwnerEncSessionKey tm inst), [Event.newOwnerKey tm inst])

/-- Logged call to `instanceMapper.encryptAndMapToLiteral`. -/
def callEncrypt (env : Env) (tm : TypeModel) (inst : Instance) (k : Key) : M Instance :=
  (env.encryptAndMapToLiteral tm inst k, [Event.encrypt tm inst k])

/-- Logged call to `crypto.applyMigrations`. -/
def callMigrateRaw (env : Env) (t : TypeRef) (inst : Instance) : M Instance :=
  (env.applyMigrations t inst, [Event.migrateRaw t inst])

/-- Logged call to `crypto.applyMigrationsForInstance`. -/
def callMigrateInstance (env : Env) (inst : Instance) : M Instance :=
  (env.applyMigrationsForInstance inst, [Event.migrateInstance inst])

/-! ## Utility functions (tutanota-utils and helpers) -/

/-- JS truthiness of an optional string (`null`, `undefined` and `""` are
falsy). -/
def truthy : Option String → Bool
  | none => false
  | some s => !s.isEmpty

/-- JS truthiness of an entity id value (a string is falsy only when empty;
an array is always truthy). -/
def idValTruthy : EntityId → Bool
  | .single s => !s.isEmpty
  | .pair _ _ => true

/-- Overwrite-or-insert of one key in a JS object. -/
def setParam (ps : Params) (k v : String) : Params :=
  ps.filter (fun p => p.1 != k) ++ [(k, v)]

/-- Key lookup in a JS object. -/
def lookupParam (ps : Params) (k : String) : Option String :=
  (ps.find? (fun p => p.1 == k)).map (·.2)

/-- `Object.assign(base, extra)`: every key of `extra` overwrites `base`. -/
def objectAssign (base extra : Params) : Params :=
  extra.foldl (fun acc kv => setParam acc kv.1 kv.2) base

/-- Fuel-driven worker for `splitInChunks` (structural recursion, so the
kernel can evaluate it on literals). -/
def splitInChunksAux (fuel : Nat) (k : Nat) (xs : List α) : List (List α) :=
  match fuel, xs with
  | 0, _ => []
  | _, [] => []
  | fuel + 1, x :: rest =>
    (x :: rest).take (max k 1) :: splitInChunksAux fuel k ((x :: rest).drop (max k 1))

/-- Modelled from the spec: `splitInChunks` from `@tutao/tutanota-utils`
splits a list into consecutive chunks of `k` elements, the last chunk
possibly shorter.  The JS loop does not terminate for `k = 0`; this total
model uses chunks of one there, and all theorems that depend on the chunk
size assume a positive configured limit. -/
def splitInChunks (k : Nat) (xs : List α) : List (List α) :=
  splitInChunksAux xs.length k xs

/-- Modelled from the spec: `flat` from `@tutao/tutanota-utils` concatenates
a list of lists. -/
def flat (l : List (List α)) : List α := l.flatten

/-- Modelled from the spec: `promiseMap` from `@tutao/tutanota-utils`, the
bounded-concurrency map over a list; results are in input order, so the
sequential model is faithful to the observable result. -/
def promiseMap : List α → (α → M β) → M (List β)
  | [], _ => M.pure []
  | x :: xs, f =>
    M.bind (f x) fun y =>
    M.bind (promiseMap xs f) fun ys =>
    M.pure (y :: ys)

/-- `returnedIds.filter(Boolean)`: drops JS-falsy entries, i.e. the
`undefined` results of caught failures and empty-string ids. -/
def filterBoolean (xs : List (Option String)) : List String :=
  xs.filterMap fun x => match x with
    | some s => if s.isEmpty then none else some s
    | none => none

/-- Modelled from the spec: `expandId` from `EntityRestCache` splits an
entity id into its optional list id and its element id. -/
def expandId : EntityId → Option String × String
  | .single id => (none, id)
  | .pair l e => (some l, e)

/-- Modelled from the spec: `_verifyType` from `EntityFunctions` rejects a
TypeModel whose shape is neither `Element` nor `ListElement` (a malformed /
non-REST shape is a caller-contract error). -/
def verifyTypeE (tm : TypeModel) : Except Err Unit :=
  if tm.type = TypeKind.Element ∨ tm.type = TypeKind.ListElement then Except.ok ()
  else Except.error (Err.ProgrammingError "only Element and ListElement types are permitted")

/-- Modelled from the spec: `PushIdentifierTypeRef`, the single named legacy
type whose raw instances need a targeted migration in bulk loads. -/
def PushIdentifierTypeRef : TypeRef := ⟨"sys", "PushIdentifier"⟩

/-- Modelled from the spec: `InstanceMapper.decryptAndMapToInstance`
degrades gracefully on a `null` session key — it still returns an instance,
with `_errors` markers set; with a key it returns the decrypted instance
without markers. -/
def decryptAndMapToInstance (_tm : TypeModel) (w : Instance) (key : Option Key) : Instance :=
  { w with errorsMarker := key.isNone }

/-! ## The EntityRestClient operations -/

/-- JS `String.prototype.toLowerCase`, as a character-wise map (in a form
the kernel can evaluate on literals). -/
def lowercase (s : String) : String := String.mk (s.data.map Char.toLower)

/-- `typeRefToPath` from the source. -/
def typeRefToPath (typeRef : TypeRef) : String :=
  "/rest/" ++ typeRef.app ++ "/" ++ lowercase typeRef.type

/-- JS `if (id) path += '/' + id` on an optional id segment. -/
def appendIdSegment (path : String) (id : Option String) : String :=
  match id with
  | some i => if i.isEmpty then path else path ++ "/" ++ i
  | none => path

/-- The record returned by `_validateAndPrepareRestRequest`. -/
structure Prepared where
  path : String
  queryParams : Params
  headers : Params
  typeModel : TypeModel
deriving DecidableEq, Repr

/-- `_validateAndPrepareRestRequest` from the source: resolve and verify the
type model, build the path, merge headers (extra over auth), reject an empty
merged header set, stamp header `v` with the model version. -/
def validateAndPrepareRestRequest (env : Env) (typeRef : TypeRef)
    (listId : Option String) (elementId : Option String)
    (queryParameters : Option Params) (extraHeaders : Option Params) : M Prepared :=
  M.bind (callResolveType env typeRef) fun typeModel =>
  M.bind (M.ofExcept (verifyTypeE typeModel)) fun _ =>
  let path := appendIdSegment (appendIdSegment (typeRefToPath typeRef) listId) elementId
  let queryParams := queryParameters.getD []
  let headers := objectAssign (objectAssign [] env.authHeaders) (extraHeaders.getD [])
  if headers.length = 0 then
    M.throwE (Err.NotAuthenticatedError "user must be authenticated for entity requests")
  else
    M.pure ⟨path, queryParams, setParam headers "v" typeModel.version, typeModel⟩

/-- `load` from the source. -/
def load (env : Env) (typeRef : TypeRef) (id : EntityId)
    (queryParameters : Option Params) (extraHeaders : Option Params) : M Instance :=
  let le := expandId id
  M.bind (validateAndPrepareRestRequest env typeRef le.1 (some le.2) queryParameters extraHeaders) fun p =>
  M.bind (callRequest env ⟨p.path, HttpMethod.GET, p.queryParams, p.headers, none, some MediaType.Json⟩) fun json =>
  let entity := env.parseInstance json
  M.bind (callMigrateRaw env typeRef entity) fun migratedEntity =>
  M.bind (M.catchOnly Err.isSessionKeyNotFound
            (M.bind (callResolveKey env p.typeModel migratedEntity) fun k => M.pure (some k))
            (fun _ => M.pure none)) fun sessionKey =>
  let inst := decryptAndMapToInstance p.typeModel migratedEntity sessionKey
  callMigrateInstance env inst

/-- `_handleLoadMultipleResult` from the source: the shared bulk decode
pipeline.  The `PushIdentifier` pre-migration runs for effect only (the
source discards its results).  Session-key-not-found is caught per
instance. -/
def handleLoadMultipleResult (env : Env) (typeRef : TypeRef)
    (loadedEntities : List Instance) : M (List Instance) :=
  M.bind (callResolveType env typeRef) fun model =>
  M.bind (if typeRef = PushIdentifierTypeRef then
            promiseMap loadedEntities (fun inst => callMigrateRaw env typeRef inst)
          else M.pure loadedEntities) fun _ =>
  promiseMap loadedEntities fun inst =>
    M.bind (M.catchOnly Err.isSessionKeyNotFound
              (M.bind (callResolveKey env model inst) fun k => M.pure (some k))
              (fun _ => M.pure none)) fun sk =>
    callMigrateInstance env (decryptAndMapToInstance model inst sk)

/-- `loadRange` from the source. -/
def loadRange (env : Env) (typeRef : TypeRef) (listId : String)
    (start : String) (count : Nat) (reverse : Bool) : M (List Instance) :=
  let rangeRequestParams : Params :=
    [("start", start), ("count", toString count), ("reverse", toString reverse)]
  M.bind (validateAndPrepareRestRequest env typeRef (some listId) none (some rangeRequestParams) none) fun p =>
  if p.typeModel.type ≠ TypeKind.ListElement then
    M.throwE (Err.ProgrammingError "only ListElement types are permitted")
  else
    M.bind (callRequest env ⟨p.path, HttpMethod.GET, p.queryParams, p.headers, none, some MediaType.Json⟩) fun json =>
    handleLoadMultipleResult env typeRef (env.parseInstanceList json)

/-- `loadMultiple` from the source. -/
def loadMultiple (env : Env) (typeRef : TypeRef) (listId : Option String)
    (elementIds : List String) : M (List Instance) :=
  M.bind (validateAndPrepareRestRequest env typeRef listId none none none) fun p =>
  let idChunks := splitInChunks env.loadMultipleLimit elementIds
  M.bind (promiseMap idChunks fun idChunk =>
    let queryParams : Params := [("ids", String.intercalate "," idChunk)]
    M.bind (callRequest env ⟨p.path, HttpMethod.GET, queryParams, p.headers, none, some MediaType.Json⟩) fun json =>
    handleLoadMultipleResult env typeRef (env.parseInstanceList json)) fun loadedChunks =>
  M.pure (flat loadedChunks)

/-- The shape / list-id pairing check shared by `setup` and
`setupMultiple`. -/
def checkListIdPairing (tm : TypeModel) (listId : Option String) : M Unit :=
  if tm.type = TypeKind.ListElement then
    if truthy listId = false then M.throwE (Err.ProgrammingError "List id must be defined for LETs")
    else M.pure ()
  else
    if truthy listId = true then M.throwE (Err.ProgrammingError "List id must not be defined for ETs")
    else M.pure ()

/-- `setup` from the source. -/
def setup (env : Env) (listId : Option String) (inst : Instance)
    (extraHeaders : Option Params) : M String :=
  let typeRef := inst.typeRef
  M.bind (validateAndPrepareRestRequest env typeRef listId none none extraHeaders) fun p =>
  M.bind (checkListIdPairing p.typeModel listId) fun _ =>
  M.bind (callNewOwnerKey env p.typeModel inst) fun sk =>
  M.bind (callEncrypt env p.typeModel inst sk) fun encryptedEntity =>
  M.bind (callRequest env ⟨p.path, HttpMethod.POST, p.queryParams, p.headers,
                           some (env.stringify encryptedEntity), some MediaType.Json⟩) fun ret =>
  M.pure (env.parseGeneratedId ret)

/-- One instance of the payload-too-large fallback in `setupMultiple`: a
single `setup`, its failure caught, recording the error and the failed
instance in the accumulator. -/
def setupFallbackSingle (env : Env) (listId : Option String) (inst : Instance)
    (acc : List Err × List Instance) : M (Option String × (List Err × List Instance)) :=
  M.catchAll (M.bind (setup env listId inst none) fun id => M.pure (some id, acc))
    (fun e => M.pure (none, (acc.1 ++ [e], acc.2 ++ [inst])))

/-- The payload-too-large fallback over a chunk, threading the error /
failed-instance accumulators. -/
def setupFallback (env : Env) (listId : Option String) :
    List Instance → (List Err × List Instance) → M (List (Option String) × (List Err × List Instance))
  | [], acc => M.pure ([], acc)
  | inst :: rest, acc =>
    M.bind (setupFallbackSingle env listId inst acc) fun ra =>
    M.bind (setupFallback env listId rest ra.2) fun rsacc =>
    M.pure (ra.1 :: rsacc.1, rsacc.2)

/-- One chunk of `setupMultiple`: encrypt every member, POST with a `count`
query parameter, parse the returned ids; on `PayloadTooLargeError` fall back
to per-instance `setup`; on any other failure record the error once and the
whole chunk as failed. -/
def setupChunk (env : Env) (listId : Option String) (tm : TypeModel)
    (path : String) (headers : Params) (chunk : List Instance)
    (acc : List Err × List Instance) : M (List String × (List Err × List Instance)) :=
  M.catchAll
    (M.bind (promiseMap chunk fun e =>
        M.bind (callNewOwnerKey env tm e) fun sk => callEncrypt env tm e sk) fun encryptedEntities =>
     M.bind (callRequest env ⟨path, HttpMethod.POST, [("count", toString chunk.length)], headers,
                              some (env.stringifyList encryptedEntities), some MediaType.Json⟩) fun ret =>
     M.pure (env.parseGeneratedIds ret, acc))
    (fun e =>
      if e.isPayloadTooLarge then
        M.bind (setupFallback env listId chunk acc) fun racc =>
        M.pure (filterBoolean racc.1, racc.2)
      else
        M.pure ([], (acc.1 ++ [e], acc.2 ++ chunk)))

/-- The chunk loop of `setupMultiple`. -/
def setupChunks (env : Env) (listId : Option String) (tm : TypeModel)
    (path : String) (headers : Params) :
    List (List Instance) → (List Err × List Instance) →
    M (List (List String) × (List Err × List Instance))
  | [], acc => M.pure ([], acc)
  | c :: cs, acc =>
    M.bind (setupChunk env listId tm path headers c acc) fun ra =>
    M.bind (setupChunks env listId tm path headers cs ra.2) fun rsacc =>
    M.pure (ra.1 :: rsacc.1, rsacc.2)

/-- `setupMultiple` from the source. -/
def setupMultiple (env : Env) (listId : Option String) (instances : List Instance) :
    M (List String) :=
  match instances with
  | [] => M.pure []
  | inst0 :: rest =>
    let instanceChunks := splitInChunks env.postMultipleLimit (inst0 :: rest)
    let typeRef := inst0.typeRef
    M.bind (validateAndPrepareRestRequest env typeRef listId none none none) fun p =>
    M.bind (checkListIdPairing p.typeModel listId) fun _ =>
    M.bind (setupChunks env listId p.typeModel p.path p.headers instanceChunks ([], [])) fun ra =>
    if ra.2.1.length ≠ 0 then
      M.throwE (Err.SetupMultipleError "Setup multiple entities failed" ra.2.1 ra.2.2)
    else
      M.pure (flat ra.1)

/-- `update` from the source: no recovery path around `resolveSessionKey`. -/
def update (env : Env) (inst : Instance) : M Unit :=
  match inst.id with
  | none => M.throwE (Err.ProgrammingError "Id must be defined")
  | some eid =>
    if idValTruthy eid = false then M.throwE (Err.ProgrammingError "Id must be defined")
    else
      let le := expandId eid
      M.bind (validateAndPrepareRestRequest env inst.typeRef le.1 (some le.2) none none) fun p =>
      M.bind (callResolveKey env p.typeModel inst) fun sessionKey =>
      M.bind (callEncrypt env p.typeModel inst sessionKey) fun encryptedEntity =>
      M.bind (callRequest env ⟨p.path, HttpMethod.PUT, p.queryParams, p.headers,
                               some (env.stringify encryptedEntity), some MediaType.Json⟩) fun _ =>
      M.pure ()

/-! ## Infrastructure lemmas -/

@[simp] theorem M.bind_fst (m : M α) (f : α → M β) :
    (M.bind m f).1 = match m.1 with
      | Except.ok a => (f a).1
      | Except.error e => Except.error e := by
  rcases m with ⟨x, l⟩; cases x <;> rfl

@[simp] theorem M.bind_snd (m : M α) (f : α → M β) :
    (M.bind m f).2 = match m.1 with
      | Except.ok a => m.2 ++ (f a).2
      | Except.error _ => m.2 := by
  rcases m with ⟨x, l⟩; cases x <;> rfl

@[simp] theorem M.catchAll_fst (m : M α) (h : Err → M α) :
    (M.catchAll m h).1 = match m.1 with
      | Except.ok a => Except.ok a
      | Except.error e => (h e).1 := by
  rcases m with ⟨x, l⟩; cases x <;> rfl

@[simp] theorem M.catchAll_snd (m : M α) (h : Err → M α) :
    (M.catchAll m h).2 = match m.1 with
      | Except.ok _ => m.2
      | Except.error e => m.2 ++ (h e).2 := by
  rcases m with ⟨x, l⟩; cases x <;> rfl

@[simp] theorem requestsOf_nil : requestsOf [] = [] := rfl

@[simp] theorem requestsOf_append (l₁ l₂ : List Event) :
    requestsOf (l₁ ++ l₂) = requestsOf l₁ ++ requestsOf l₂ := by
  simp [requestsOf]

@[simp] theorem requestsOf_cons_req (r : Request) (l : List Event) :
    requestsOf (Event.req r :: l) = r :: requestsOf l := rfl

@[simp] theorem requestsOf_cons_resolveType (t : TypeRef) (l : List Event) :
    requestsOf (Event.resolveType t :: l) = requestsOf l := rfl

@[simp] theorem requestsOf_cons_resolveKey (tm : TypeModel) (i : Instance) (l : List Event) :
    requestsOf (Event.resolveKey tm i :: l) = requestsOf l := rfl

@[simp] theorem requestsOf_cons_newOwnerKey (tm : TypeModel) (i : Instance) (l : List Event) :
    requestsOf (Event.newOwnerKey tm i :: l) = requestsOf l := rfl

@[simp] theorem requestsOf_cons_encrypt (tm : TypeModel) (i : Instance) (k : Key) (l : List Event) :
    requestsOf (Event.encrypt tm i k :: l) = requestsOf l := rfl

@[simp] theorem requestsOf_cons_migrateRaw (t : TypeRef) (i : Instance) (l : List Event) :
    requestsOf (Event.migrateRaw t i :: l) = requestsOf l := rfl

@[simp] theorem requestsOf_cons_migrateInstance (i : Instance) (l : List Event) :
    requestsOf (Event.migrateInstance i :: l) = requestsOf l := rfl

theorem lookupParam_setParam_self (ps : Params) (k v : String) :
    lookupParam (setParam ps k v) k = some v := by
  unfold lookupParam setParam
  have hnone : (ps.filter (fun p => p.1 != k)).find? (fun p => p.1 == k) = none := by
    apply List.find?_eq_none.mpr
    intro x hx
    have := List.of_mem_filter hx
    simpa using this
  rw [List.find?_append, hnone]
  simp [List.find?]

theorem lookupParam_setParam_ne (ps : Params) (k v k' : String) (h : k' ≠ k) :
    lookupParam (setParam ps k v) k' = lookupParam ps k' := by
  unfold lookupParam setParam
  have hkk : (k == k') = false := beq_eq_false_iff_ne.mpr (Ne.symm h)
  have h2 : List.find? (fun p => p.1 == k') [(k, v)] = none := by
    simp [List.find?, hkk]
  have h3 : (ps.filter (fun p => p.1 != k)).find? (fun p => p.1 == k') =
      ps.find? (fun p => p.1 == k') := by
    induction ps with
    | nil => rfl
    | cons p ps ih =>
      by_cases hp : p.1 = k'
      · have hne : (p.1 != k) = true := by simp [hp, h]
        have heq : (p.1 == k') = true := by simp [hp]
        simp [List.filter_cons, hne, List.find?, heq]
      · have hp' : (p.1 == k') = false := by simp [hp]
        by_cases hpk : p.1 = k
        · have hne : (p.1 != k) = false := by simp [hpk]
          simp [List.filter_cons, hne, List.find?, hp', ih]
        · have hne : (p.1 != k) = true := by simp [hpk]
          simp [List.filter_cons, hne, List.find?, hp', ih]
  rw [List.find?_append, h3, h2]
  cases hps : ps.find? (fun p => p.1 == k') <;> simp

theorem lookupParam_objectAssign_of_none (extra : Params) (k : String) :
    ∀ base : Params, lookupParam extra k = none →
      lookupParam (objectAssign base extra) k = lookupParam base k := by
  induction extra with
  | nil => intro base _; rfl
  | cons p rest ih =>
    intro base h
    cases hpk : (p.1 == k) with
    | true => simp [lookupParam, List.find?, hpk] at h
    | false =>
      have hrest : lookupParam rest k = none := by
        simpa [lookupParam, List.find?, hpk] using h
      show lookupParam (objectAssign (setParam base p.1 p.2) rest) k = lookupParam base k
      rw [ih (setParam base p.1 p.2) hrest]
      exact lookupParam_setParam_ne base p.1 p.2 k
        (Ne.symm (beq_eq_false_iff_ne.mp hpk))

theorem lookupParam_objectAssign_of_some (extra : Params) (k v : String) :
    ∀ base : Params, (extra.map Prod.fst).Nodup → lookupParam extra k = some v →
      lookupParam (objectAssign base extra) k = some v := by
  induction extra with
  | nil => intro base _ h; simp [lookupParam, List.find?] at h
  | cons p rest ih =>
    intro base hnodup h
    have hnodup2 : p.1 ∉ rest.map Prod.fst ∧ (rest.map Prod.fst).Nodup := by
      rw [List.map_cons, List.nodup_cons] at hnodup
      exact hnodup
    cases hpk : (p.1 == k) with
    | true =>
      have hp : p.1 = k := by simpa using hpk
      have hv : p.2 = v := by
        simpa [lookupParam, List.find?, hpk] using h
      have hrest : lookupParam rest k = none := by
        have hfind : rest.find? (fun q => q.1 == k) = none := by
          apply List.find?_eq_none.mpr
          intro x hx hbeq
          apply hnodup2.1
          have hxk : x.1 = k := by simpa using hbeq
          rw [hp, ← hxk]
          exact List.mem_map_of_mem Prod.fst hx
        simp [lookupParam, hfind]
      show lookupParam (objectAssign (setParam base p.1 p.2) rest) k = some v
      rw [lookupParam_objectAssign_of_none rest k (setParam base p.1 p.2) hrest, ← hv, ← hp]
      exact lookupParam_setParam_self base p.1 p.2
    | false =>
      have hrest : lookupParam rest k = some v := by
        simpa [lookupParam, List.find?, hpk] using h
      exact ih (setParam base p.1 p.2) hnodup2.2 hrest

theorem splitInChunksAux_fuel (k : Nat) :
    ∀ (f₁ f₂ : Nat) (xs : List α), xs.length ≤ f₁ → xs.length ≤ f₂ →
      splitInChunksAux f₁ k xs = splitInChunksAux f₂ k xs := by
  intro f₁
  induction f₁ with
  | zero =>
    intro f₂ xs h1 _
    have hx : xs = [] := List.length_eq_zero.mp (Nat.le_zero.mp h1)
    subst hx
    cases f₂ <;> rfl
  | succ f₁ ih =>
    intro f₂ xs h1 h2
    cases xs with
    | nil => cases f₂ <;> rfl
    | cons x rest =>
      cases f₂ with
      | zero => simp at h2
      | succ f₂ =>
        show (x :: rest).take (max k 1) :: splitInChunksAux f₁ k ((x :: rest).drop (max k 1)) =
          (x :: rest).take (max k 1) :: splitInChunksAux f₂ k ((x :: rest).drop (max k 1))
        congr 1
        apply ih
        · simp only [List.length_drop, List.length_cons] at *
          omega
        · simp only [List.length_drop, List.length_cons] at *
          omega

@[simp] theorem splitInChunks_nil (k : Nat) : splitInChunks k ([] : List α) = [] := rfl

theorem splitInChunks_cons (k : Nat) (x : α) (rest : List α) :
    splitInChunks k (x :: rest) =
      (x :: rest).take (max k 1) :: splitInChunks k ((x :: rest).drop (max k 1)) := by
  show splitInChunksAux (rest.length + 1) k (x :: rest) = _
  show (x :: rest).take (max k 1) :: splitInChunksAux rest.length k ((x :: rest).drop (max k 1)) = _
  congr 1
  apply splitInChunksAux_fuel
  · simp only [List.length_drop, List.length_cons]
    omega
  · exact Nat.le_refl _

theorem splitInChunks_flatten (k : Nat) : ∀ (xs : List α), (splitInChunks k xs).flatten = xs
  | [] => by simp
  | x :: rest => by
    rw [splitInChunks_cons]
    simp only [List.flatten_cons]
    rw [splitInChunks_flatten k ((x :: rest).drop (max k 1))]
    exact List.take_append_drop _ _
termination_by xs => xs.length
decreasing_by simp [List.length_drop]

theorem splitInChunks_length (k : Nat) (hk : 0 < k) :
    ∀ (xs : List α), (splitInChunks k xs).length = (xs.length + k - 1) / k
  | [] => by
    simp only [splitInChunks_nil, List.length_nil]
    exact (Nat.div_eq_of_lt (by omega)).symm
  | x :: rest => by
    have hmax : max k 1 = k := by omega
    rw [splitInChunks_cons, hmax]
    simp only [List.length_cons]
    rw [splitInChunks_length k hk ((x :: rest).drop k)]
    have hdrop : ((x :: rest).drop k).length = rest.length + 1 - k := by
      simp [List.length_drop]
    rw [hdrop]
    rcases Nat.lt_or_ge (rest.length + 1) (k + 1) with hle | hgt
    · have h0 : rest.length + 1 - k = 0 := by omega
      rw [h0]
      have hz : (0 + k - 1) / k = 0 := Nat.div_eq_of_lt (by omega)
      rw [hz]
      have h1 : (rest.length + 1 + k - 1) / k = 1 := by
        apply Nat.div_eq_of_lt_le
        · omega
        · omega
      omega
    · have h1 : rest.length + 1 - k + k - 1 = rest.length + 1 - 1 := by omega
      have h2 : rest.length + 1 + k - 1 = (rest.length + 1 - 1) + k := by omega
      rw [h1, h2, Nat.add_div_right _ hk]
termination_by xs => xs.length
decreasing_by simp [List.length_drop]; omega

theorem flatten_map_singleton (g : α → β) (xs : List α) :
    (xs.map (fun a => [g a])).flatten = xs.map g := by
  induction xs with
  | nil => rfl
  | cons x xs ih => simp [ih]

theorem flatten_map_nil (xs : List α) :
    (xs.map (fun _ => ([] : List β))).flatten = [] := by
  induction xs with
  | nil => rfl
  | cons x xs ih => simp [ih]

theorem flatten_length_eq_of_forall₂ {cs : List (List γ)} {ess : List (List δ)}
    (h : List.Forall₂ (fun c es => es.length = c.length) cs ess) :
    ess.flatten.length = cs.flatten.length := by
  induction h with
  | nil => rfl
  | cons h₁ _ ih => simp [h₁, ih]

theorem promiseMap_ok_with (f : α → M β) (R : α → β → Prop) (reqs : α → List Request)
    (xs : List α)
    (h : ∀ a ∈ xs, ∃ b l, f a = (Except.ok b, l) ∧ R a b ∧ requestsOf l = reqs a) :
    ∃ ys log, promiseMap xs f = (Except.ok ys, log) ∧ List.Forall₂ R xs ys ∧
      requestsOf log = (xs.map reqs).flatten := by
  induction xs with
  | nil => exact ⟨[], [], rfl, List.Forall₂.nil, rfl⟩
  | cons x xs ih =>
    obtain ⟨b, l, hf, hR, hreq⟩ := h x (List.mem_cons_self x xs)
    obtain ⟨ys, log, hmap, hfa, hlog⟩ := ih (fun a ha => h a (List.mem_cons_of_mem x ha))
    refine ⟨b :: ys, l ++ log, ?_, List.Forall₂.cons hR hfa, ?_⟩
    · simp [promiseMap, hf, hmap, M.bind, M.pure]
    · simp [hreq, hlog]

/-- The merged header set built by request preparation:
`Object.assign({}, authHeaders, extraHeaders)`. -/
def mergedHeaders (env : Env) (extraHeaders : Option Params) : Params :=
  objectAssign (objectAssign [] env.authHeaders) (extraHeaders.getD [])

/-- Reduction of `_validateAndPrepareRestRequest` in the successful case. -/
theorem validate_ok (env : Env) (typeRef : TypeRef) (listId elementId : Option String)
    (qp eh : Option Params) (tm : TypeModel)
    (hres : env.resolveTypeReference typeRef = Except.ok tm)
    (hver : verifyTypeE tm = Except.ok ())
    (hne : mergedHeaders env eh ≠ []) :
    validateAndPrepareRestRequest env typeRef listId elementId qp eh =
      (Except.ok ⟨appendIdSegment (appendIdSegment (typeRefToPath typeRef) listId) elementId,
                  qp.getD [],
                  setParam (mergedHeaders env eh) "v" tm.version,
                  tm⟩,
       [Event.resolveType typeRef]) := by
  have hlen : ¬ ((objectAssign (objectAssign [] env.authHeaders) (eh.getD [])).length = 0) := by
    intro h0
    exact hne (List.length_eq_zero.mp h0)
  simp [validateAndPrepareRestRequest, callResolveType, hres, hver, M.ofExcept, hlen,
    M.bind, M.pure, mergedHeaders]

/-- Reduction of `_validateAndPrepareRestRequest` when the merged header set
is empty: `NotAuthenticatedError`, before any network request. -/
theorem validate_noauth (env : Env) (typeRef : TypeRef) (listId elementId : Option String)
    (qp eh : Option Params) (tm : TypeModel)
    (hres : env.resolveTypeReference typeRef = Except.ok tm)
    (hver : verifyTypeE tm = Except.ok ())
    (hempty : mergedHeaders env eh = []) :
    validateAndPrepareRestRequest env typeRef listId elementId qp eh =
      (Except.error (Err.NotAuthenticatedError "user must be authenticated for entity requests"),
       [Event.resolveType typeRef]) := by
  have hempty' : objectAssign (objectAssign [] env.authHeaders) (eh.getD []) = [] := hempty
  simp [validateAndPrepareRestRequest, callResolveType, hres, hver, M.ofExcept, hempty',
    M.bind, M.throwE]

/-- `_validateAndPrepareRestRequest` never performs a network request. -/
theorem validate_requests (env : Env) (typeRef : TypeRef) (listId elementId : Option String)
    (qp eh : Option Params) :
    requestsOf (validateAndPrepareRestRequest env typeRef listId elementId qp eh).2 = [] := by
  unfold validateAndPrepareRestRequest callResolveType
  rcases hres : env.resolveTypeReference typeRef with e | tm
  · simp [hres, M.bind]
  · rcases hver : verifyTypeE tm with e | u
    · simp [hres, hver, M.ofExcept, M.bind]
    · by_cases hlen : (objectAssign (objectAssign [] env.authHeaders) (eh.getD [])).length = 0
      · simp [hres, hver, M.ofExcept, M.bind, hlen, M.throwE]
      · simp [hres, hver, M.ofExcept, M.bind, hlen, M.pure]

/-- Reduction of `_validateAndPrepareRestRequest` when the resolved model
fails `_verifyType`. -/
theorem validate_verify_error (env : Env) (typeRef : TypeRef) (listId elementId : Option String)
    (qp eh : Option Params) (tm : TypeModel) (e : Err)
    (hres : env.resolveTypeReference typeRef = Except.ok tm)
    (hver : verifyTypeE tm = Except.error e) :
    validateAndPrepareRestRequest env typeRef listId elementId qp eh =
      (Except.error e, [Event.resolveType typeRef]) := by
  simp [validateAndPrepareRestRequest, callResolveType, hres, hver, M.ofExcept, M.bind]

/-- A successfully prepared request carries the resolved TypeModel. -/
theorem validate_typeModel (env : Env) (typeRef : TypeRef) (listId elementId : Option String)
    (qp eh : Option Params) (tm : TypeModel) (p : Prepared)
    (hres : env.resolveTypeReference typeRef = Except.ok tm)
    (hp : (validateAndPrepareRestRequest env typeRef listId elementId qp eh).1 = Except.ok p) :
    p.typeModel = tm := by
  rcases hver : verifyTypeE tm with e | u
  · rw [validate_verify_error env typeRef listId elementId qp eh tm e hres hver] at hp
    cases hp
  · by_cases hm : mergedHeaders env eh = []
    · rw [validate_noauth env typeRef listId elementId qp eh tm hres hver hm] at hp
      cases hp
    · rw [validate_ok env typeRef listId elementId qp eh tm hres hver hm] at hp
      have hpe := Except.ok.inj hp
      rw [← hpe]

/-- The path the spec's words describe (with the `/rest` prefix the code
actually uses): base, then `/listId` when present (non-empty), then
`/elementId` when present (non-empty), nothing else. -/
def pathSpec (typeRef : TypeRef) (listId elementId : Option String) : String :=
  "/rest/" ++ typeRef.app ++ "/" ++ lowercase typeRef.type
    ++ (match listId with
        | some l => if l.isEmpty then "" else "/" ++ l
        | none => "")
    ++ (match elementId with
        | some e => if e.isEmpty then "" else "/" ++ e
        | none => "")

/-- The prepared path, written out: `/rest/<app>/<lowercased type>` with the
non-empty id segments appended in order. -/
theorem path_shape (typeRef : TypeRef) (listId elementId : Option String) :
    appendIdSegment (appendIdSegment (typeRefToPath typeRef) listId) elementId =
      pathSpec typeRef listId elementId := by
  unfold pathSpec
  cases listId with
  | none =>
    cases elementId with
    | none => simp [appendIdSegment, typeRefToPath, String.append_empty]
    | some e =>
      by_cases he : e.isEmpty <;>
        simp [appendIdSegment, typeRefToPath, he, String.append_empty, String.append_assoc]
  | some l =>
    cases elementId with
    | none =>
      by_cases hl : l.isEmpty <;>
        simp [appendIdSegment, typeRefToPath, hl, String.append_empty, String.append_assoc]
    | some e =>
      by_cases hl : l.isEmpty <;> by_cases he : e.isEmpty <;>
        simp [appendIdSegment, typeRefToPath, hl, he, String.append_empty, String.append_assoc]

/-! ## Concrete environment used by witnesses and counterexamples -/

/-- A sample `Element`-shaped instance. -/
def instA : Instance := ⟨⟨"sys", "User"⟩, some (EntityId.single "e1"), 10, false⟩

/-- A sample `ListElement`-shaped instance. -/
def instB : Instance := ⟨⟨"tutanota", "Mail"⟩, some (EntityId.pair "L1" "e2"), 20, false⟩

/-- A concrete environment: `sys/User` resolves to an `Element` model,
`tutanota/Mail` to a `ListElement` model; all collaborators succeed. -/
def wEnv : Env where
  resolveTypeReference := fun t =>
    if t.type = "User" then Except.ok ⟨TypeKind.Element, "73"⟩
    else if t.type = "Mail" then Except.ok ⟨TypeKind.ListElement, "5"⟩
    else Except.error (Err.Other 0)
  authHeaders := [("accessToken", "tok")]
  request := fun _ => Except.ok "resp"
  applyMigrations := fun _ i => Except.ok i
  applyMigrationsForInstance := fun i => Except.ok i
  resolveSessionKey := fun _ _ => Except.ok 7
  setNewOwnerEncSessionKey := fun _ _ => 3
  encryptAndMapToLiteral := fun _ i _ => Except.ok i
  parseInstance := fun _ => instA
  parseInstanceList := fun _ => [instB]
  parseGeneratedId := fun _ => "gid"
  parseGeneratedIds := fun _ => ["gid1", "gid2"]
  stringify := fun _ => "enc"
  stringifyList := fun _ => "encs"
  loadMultipleLimit := 2
  postMultipleLimit := 2

/-! ## Claims -/

/-- C9: `setupMultiple` called with an empty instance list returns an empty
sequence and performs no observable action at all: no network call, no type
resolution, no validation and no encryption (the event log is empty). -/
theorem claim9_setupMultiple_empty (env : Env) (listId : Option String) :
    setupMultiple env listId [] = (Except.ok [], []) := rfl

/-- C2 counterexample: the claim says the resource path equals
`/<app-namespace>/<lowercased-type-name>` (plus id segments) and nothing
else, but the code prefixes `/rest`: for `sys/User` the prepared path is
`/rest/sys/user`, not `/sys/user`. -/
theorem claim2_counterexample :
    (validateAndPrepareRestRequest wEnv ⟨"sys", "User"⟩ none none none none).1 =
      Except.ok ⟨"/rest/sys/user", [],
        [("accessToken", "tok"), ("v", "73")], ⟨TypeKind.Element, "73"⟩⟩ ∧
    "/rest/sys/user" ≠ "/sys/user" := by
  constructor
  · rfl
  · decide

/-- C2 amended: for every prepared request, the resource path equals
`/rest/<app-namespace>/<lowercased-type-name>`, with `/listId` appended when
a list id is present (non-empty) and then `/elementId` appended when an
element id is present (non-empty), in that order, and nothing else. -/
theorem claim2_amended_path (env : Env) (typeRef : TypeRef)
    (listId elementId : Option String) (qp eh : Option Params)
    (tm : TypeModel) (p : Prepared)
    (hres : env.resolveTypeReference typeRef = Except.ok tm)
    (hver : verifyTypeE tm = Except.ok ())
    (hp : (validateAndPrepareRestRequest env typeRef listId elementId qp eh).1 = Except.ok p) :
    p.path = pathSpec typeRef listId elementId := by
  by_cases hm : mergedHeaders env eh = []
  · rw [validate_noauth env typeRef listId elementId qp eh tm hres hver hm] at hp
    cases hp
  · rw [validate_ok env typeRef listId elementId qp eh tm hres hver hm] at hp
    have hpe := Except.ok.inj hp
    cases hpe
    exact (path_shape typeRef listId elementId)

/-- C2 amended-path witness at a concrete call: list and element ids are
appended in order after the `/rest/<app>/<type>` base. -/
theorem claim2_amended_path_witness :
    ("/rest/tutanota/mail/L1/e2" : String) =
      pathSpec ⟨"tutanota", "Mail"⟩ (some "L1") (some "e2") := by
  have h := claim2_amended_path wEnv ⟨"tutanota", "Mail"⟩ (some "L1") (some "e2")
    none none ⟨TypeKind.ListElement, "5"⟩
    ⟨"/rest/tutanota/mail/L1/e2", [],
      [("accessToken", "tok"), ("v", "5")], ⟨TypeKind.ListElement, "5"⟩⟩
    rfl rfl rfl
  exact h

/-- C8: for every operation and every prepared request, the final header set
contains key `v` whose value is the resolved TypeModel's version. -/
theorem claim8_version_header (env : Env) (typeRef : TypeRef)
    (listId elementId : Option String) (qp eh : Option Params)
    (tm : TypeModel) (p : Prepared)
    (hres : env.resolveTypeReference typeRef = Except.ok tm)
    (hver : verifyTypeE tm = Except.ok ())
    (hp : (validateAndPrepareRestRequest env typeRef listId elementId qp eh).1 = Except.ok p) :
    lookupParam p.headers "v" = some tm.version := by
  by_cases hm : mergedHeaders env eh = []
  · rw [validate_noauth env typeRef listId elementId qp eh tm hres hver hm] at hp
    cases hp
  · rw [validate_ok env typeRef listId elementId qp eh tm hres hver hm] at hp
    have hpe := Except.ok.inj hp
    rw [← hpe]
    exact lookupParam_setParam_self _ "v" tm.version

/-- C8 witness at a concrete prepared request. -/
theorem claim8_version_header_witness :
    lookupParam [("accessToken", "tok"), ("v", "73")] "v" = some "73" := by
  have h := claim8_version_header wEnv ⟨"sys", "User"⟩ none none none none
    ⟨TypeKind.Element, "73"⟩
    ⟨"/rest/sys/user", [], [("accessToken", "tok"), ("v", "73")], ⟨TypeKind.Element, "73"⟩⟩
    rfl rfl rfl
  exact h

/-- C5: request preparation merges the auth provider's headers with the
caller's extra headers, extra headers winning on key collision; it performs
no network call; and it raises `NotAuthenticatedError` exactly when the
merged header set is empty. -/
theorem claim5_header_merge_and_auth_gate (env : Env) (typeRef : TypeRef)
    (listId elementId : Option String) (qp eh : Option Params) (tm : TypeModel)
    (hres : env.resolveTypeReference typeRef = Except.ok tm)
    (hver : verifyTypeE tm = Except.ok ())
    (hnodupA : (env.authHeaders.map Prod.fst).Nodup)
    (hnodupE : ((eh.getD []).map Prod.fst).Nodup) :
    requestsOf (validateAndPrepareRestRequest env typeRef listId elementId qp eh).2 = [] ∧
    ((∃ msg, (validateAndPrepareRestRequest env typeRef listId elementId qp eh).1 =
        Except.error (Err.NotAuthenticatedError msg)) ↔ mergedHeaders env eh = []) ∧
    (∀ p, (validateAndPrepareRestRequest env typeRef listId elementId qp eh).1 = Except.ok p →
      ∀ k v, k ≠ "v" → lookupParam (eh.getD []) k = some v →
        lookupParam p.headers k = some v) ∧
    (∀ p, (validateAndPrepareRestRequest env typeRef listId elementId qp eh).1 = Except.ok p →
      ∀ k v, k ≠ "v" → lookupParam (eh.getD []) k = none →
        lookupParam env.authHeaders k = some v →
        lookupParam p.headers k = some v) := by
  refine ⟨validate_requests env typeRef listId elementId qp eh, ?_, ?_, ?_⟩
  · by_cases hm : mergedHeaders env eh = []
    · rw [validate_noauth env typeRef listId elementId qp eh tm hres hver hm]
      exact ⟨fun _ => hm, fun _ => ⟨_, rfl⟩⟩
    · rw [validate_ok env typeRef listId elementId qp eh tm hres hver hm]
      constructor
      · rintro ⟨msg, hmsg⟩
        cases hmsg
      · intro hc
        exact absurd hc hm
  · intro p hp k v hkv hlook
    by_cases hm : mergedHeaders env eh = []
    · rw [validate_noauth env typeRef listId elementId qp eh tm hres hver hm] at hp
      cases hp
    · rw [validate_ok env typeRef listId elementId qp eh tm hres hver hm] at hp
      have hpe := Except.ok.inj hp
      rw [← hpe]
      show lookupParam (setParam (mergedHeaders env eh) "v" tm.version) k = some v
      rw [lookupParam_setParam_ne _ "v" tm.version k hkv]
      exact lookupParam_objectAssign_of_some (eh.getD []) k v
        (objectAssign [] env.authHeaders) hnodupE hlook
  · intro p hp k v hkv hnone hauth
    by_cases hm : mergedHeaders env eh = []
    · rw [validate_noauth env typeRef listId elementId qp eh tm hres hver hm] at hp
      cases hp
    · rw [validate_ok env typeRef listId elementId qp eh tm hres hver hm] at hp
      have hpe := Except.ok.inj hp
      rw [← hpe]
      show lookupParam (setParam (mergedHeaders env eh) "v" tm.version) k = some v
      rw [lookupParam_setParam_ne _ "v" tm.version k hkv]
      show lookupParam (objectAssign (objectAssign [] env.authHeaders) (eh.getD [])) k = some v
      rw [lookupParam_objectAssign_of_none (eh.getD []) k (objectAssign [] env.authHeaders) hnone]
      exact lookupParam_objectAssign_of_some env.authHeaders k v [] hnodupA hauth

/-- C6: `setup` and `setupMultiple` on a `ListElement`-shaped type with a
null list id, and on an `Element`-shaped type with a present (non-empty)
list id, fail fast with a usage error: the event log holds only the type
resolution — no encryption, no owner-key minting, no network request. -/
theorem claim6_listId_pairing (env : Env) (listId : Option String) (inst : Instance)
    (rest : List Instance) (eh : Option Params) (tm : TypeModel)
    (hres : env.resolveTypeReference inst.typeRef = Except.ok tm)
    (hne : mergedHeaders env eh ≠ [])
    (hneNone : mergedHeaders env none ≠ []) :
    (tm.type = TypeKind.ListElement → listId = none →
      setup env listId inst eh =
        (Except.error (Err.ProgrammingError "List id must be defined for LETs"),
          [Event.resolveType inst.typeRef])) ∧
    (∀ l, tm.type = TypeKind.Element → listId = some l → l.isEmpty = false →
      setup env listId inst eh =
        (Except.error (Err.ProgrammingError "List id must not be defined for ETs"),
          [Event.resolveType inst.typeRef])) ∧
    (tm.type = TypeKind.ListElement → listId = none →
      setupMultiple env listId (inst :: rest) =
        (Except.error (Err.ProgrammingError "List id must be defined for LETs"),
          [Event.resolveType inst.typeRef])) ∧
    (∀ l, tm.type = TypeKind.Element → listId = some l → l.isEmpty = false →
      setupMultiple env listId (inst :: rest) =
        (Except.error (Err.ProgrammingError "List id must not be defined for ETs"),
          [Event.resolveType inst.typeRef])) := by
  refine ⟨?_, ?_, ?_, ?_⟩
  · intro htm hlid
    subst hlid
    have hver : verifyTypeE tm = Except.ok () := by simp [verifyTypeE, htm]
    simp [setup, validate_ok env inst.typeRef none none none eh tm hres hver hne,
      checkListIdPairing, htm, truthy, M.bind, M.throwE]
  · intro l htm hlid hl
    subst hlid
    have hver : verifyTypeE tm = Except.ok () := by simp [verifyTypeE, htm]
    simp [setup, validate_ok env inst.typeRef (some l) none none eh tm hres hver hne,
      checkListIdPairing, htm, truthy, hl, M.bind, M.throwE]
  · intro htm hlid
    subst hlid
    have hver : verifyTypeE tm = Except.ok () := by simp [verifyTypeE, htm]
    simp [setupMultiple, validate_ok env inst.typeRef none none none none tm hres hver hneNone,
      checkListIdPairing, htm, truthy, M.bind, M.throwE]
  · intro l htm hlid hl
    subst hlid
    have hver : verifyTypeE tm = Except.ok () := by simp [verifyTypeE, htm]
    simp [setupMultiple, validate_ok env inst.typeRef (some l) none none none tm hres hver hneNone,
      checkListIdPairing, htm, truthy, hl, M.bind, M.throwE]

/-- C6 witness: `setup` of a `ListElement`-shaped instance without a list id
fails fast with the usage error, after type resolution only. -/
theorem claim6_witness :
    setup wEnv none instB none =
      (Except.error (Err.ProgrammingError "List id must be defined for LETs"),
        [Event.resolveType ⟨"tutanota", "Mail"⟩]) := by
  have h := claim6_listId_pairing wEnv none instB [] none ⟨TypeKind.ListElement, "5"⟩
    rfl (by decide) (by decide)
  exact h.1 rfl rfl

/-- C7: `loadRange` on a type whose resolved TypeModel shape is not
`ListElement` never issues a network request, and (when the auth gate
passes) fails with a usage error after type resolution only. -/
theorem claim7_loadRange_requires_listElement (env : Env) (typeRef : TypeRef)
    (listId start : String) (count : Nat) (reverse : Bool) (tm : TypeModel)
    (hres : env.resolveTypeReference typeRef = Except.ok tm)
    (htm : tm.type ≠ TypeKind.ListElement) :
    requestsOf (loadRange env typeRef listId start count reverse).2 = [] ∧
    (mergedHeaders env none ≠ [] →
      ∃ msg, loadRange env typeRef listId start count reverse =
        (Except.error (Err.ProgrammingError msg), [Event.resolveType typeRef])) := by
  constructor
  · have hreq := validate_requests env typeRef (some listId) none
      (some [("start", start), ("count", toString count), ("reverse", toString reverse)]) none
    rcases hx : validateAndPrepareRestRequest env typeRef (some listId) none
      (some [("start", start), ("count", toString count), ("reverse", toString reverse)]) none
      with ⟨x, l⟩
    rw [hx] at hreq
    cases x with
    | error e => simp [loadRange, hx, M.bind, hreq]
    | ok p =>
      have hptm : p.typeModel = tm :=
        validate_typeModel env typeRef (some listId) none _ none tm p hres (by rw [hx])
      have hcond : p.typeModel.type ≠ TypeKind.ListElement := by rw [hptm]; exact htm
      simp [loadRange, hx, M.bind, M.throwE, hcond, hreq]
  · intro hne
    rcases hverc : verifyTypeE tm with e | u
    · have he : e = Err.ProgrammingError "only Element and ListElement types are permitted" := by
        by_cases hel : tm.type = TypeKind.Element ∨ tm.type = TypeKind.ListElement
        · simp [verifyTypeE, hel] at hverc
        · simp [verifyTypeE, hel] at hverc
          exact hverc.symm
      refine ⟨"only Element and ListElement types are permitted", ?_⟩
      rw [← he]
      simp [loadRange, validate_verify_error env typeRef (some listId) none
        (some [("start", start), ("count", toString count), ("reverse", toString reverse)])
        none tm e hres hverc, M.bind]
    · refine ⟨"only ListElement types are permitted", ?_⟩
      simp [loadRange, validate_ok env typeRef (some listId) none
        (some [("start", start), ("count", toString count), ("reverse", toString reverse)])
        none tm hres (by simpa using hverc) hne, M.bind, M.throwE, htm]

/-- C7 witness: `loadRange` on the `Element`-shaped `sys/User` fails with
the usage error and the log shows type resolution only. -/
theorem claim7_witness :
    ∃ msg, loadRange wEnv ⟨"sys", "User"⟩ "L1" "start" 10 false =
      (Except.error (Err.ProgrammingError msg), [Event.resolveType ⟨"sys", "User"⟩]) :=
  (claim7_loadRange_requires_listElement wEnv ⟨"sys", "User"⟩ "L1" "start" 10 false
    ⟨TypeKind.Element, "73"⟩ rfl (by decide)).2 (by decide)

/-- The GET request `load` issues, given the resolved model (derived from
`validate_ok`). -/
def loadRequest (env : Env) (typeRef : TypeRef) (id : EntityId)
    (qp eh : Option Params) (tm : TypeModel) : Request :=
  ⟨appendIdSegment (appendIdSegment (typeRefToPath typeRef) (expandId id).1)
      (some (expandId id).2),
    HttpMethod.GET, qp.getD [], setParam (mergedHeaders env eh) "v" tm.version,
    none, some MediaType.Json⟩

/-- Shared lemma: when `resolveSessionKey` signals `SessionKeyNotFoundError`,
`load` treats the key as null and still returns the (migrated) instance
decrypted in degraded mode. -/
theorem load_sessionKeyNotFound (env : Env) (typeRef : TypeRef) (id : EntityId)
    (qp eh : Option Params) (tm : TypeModel) (body : String) (mig fin : Instance) (s : String)
    (hres : env.resolveTypeReference typeRef = Except.ok tm)
    (hver : verifyTypeE tm = Except.ok ())
    (hne : mergedHeaders env eh ≠ [])
    (hreq : env.request (loadRequest env typeRef id qp eh tm) = Except.ok body)
    (hmig : env.applyMigrations typeRef (env.parseInstance body) = Except.ok mig)
    (hsk : env.resolveSessionKey tm mig = Except.error (Err.SessionKeyNotFoundError s))
    (hfin : env.applyMigrationsForInstance (decryptAndMapToInstance tm mig none) = Except.ok fin) :
    (load env typeRef id qp eh).1 = Except.ok fin := by
  have hreq' := hreq
  unfold loadRequest at hreq'
  simp [load, validate_ok env typeRef (expandId id).1 (some (expandId id).2) qp eh tm hres hver hne,
    callRequest, callMigrateRaw, callResolveKey, callMigrateInstance,
    M.catchOnly, M.bind, M.pure, hreq', hmig, hsk, hfin, Err.isSessionKeyNotFound]

/-- C4: when `resolveSessionKey` raises `SessionKeyNotFoundError`, `load`
treats the key as null and still returns a non-null entity carrying error
markers; every other `resolveSessionKey` error propagates to the caller. -/
theorem claim4_load_sessionKey_recovery (env : Env) (typeRef : TypeRef) (id : EntityId)
    (qp eh : Option Params) (tm : TypeModel) (body : String) (mig : Instance)
    (hres : env.resolveTypeReference typeRef = Except.ok tm)
    (hver : verifyTypeE tm = Except.ok ())
    (hne : mergedHeaders env eh ≠ [])
    (hreq : env.request (loadRequest env typeRef id qp eh tm) = Except.ok body)
    (hmig : env.applyMigrations typeRef (env.parseInstance body) = Except.ok mig)
    (hpm : ∀ i j, env.applyMigrationsForInstance i = Except.ok j →
      j.errorsMarker = i.errorsMarker) :
    (∀ s fin, env.resolveSessionKey tm mig = Except.error (Err.SessionKeyNotFoundError s) →
      env.applyMigrationsForInstance (decryptAndMapToInstance tm mig none) = Except.ok fin →
      (load env typeRef id qp eh).1 = Except.ok fin ∧ fin.errorsMarker = true) ∧
    (∀ e, env.resolveSessionKey tm mig = Except.error e → e.isSessionKeyNotFound = false →
      (load env typeRef id qp eh).1 = Except.error e) := by
  constructor
  · intro s fin hsk hfin
    refine ⟨load_sessionKeyNotFound env typeRef id qp eh tm body mig fin s
      hres hver hne hreq hmig hsk hfin, ?_⟩
    have := hpm _ _ hfin
    simpa [decryptAndMapToInstance] using this
  · intro e hsk he
    have hreq' := hreq
    unfold loadRequest at hreq'
    simp [load, validate_ok env typeRef (expandId id).1 (some (expandId id).2) qp eh tm
        hres hver hne,
      callRequest, callMigrateRaw, callResolveKey, callMigrateInstance,
      M.catchOnly, M.bind, M.pure, M.throwE, hreq', hmig, hsk, he]

/-- An environment whose session-key resolution always signals
`SessionKeyNotFoundError`. -/
def wEnvSknf : Env :=
  { wEnv with resolveSessionKey := fun _ _ => Except.error (Err.SessionKeyNotFoundError "nf") }

/-- C4 witness: at a concrete environment whose key resolution signals "not
found", `load` returns the degraded instance with the error marker set. -/
theorem claim4_witness :
    (load wEnvSknf ⟨"sys", "User"⟩ (EntityId.single "e1") none none).1 =
      Except.ok { instA with errorsMarker := true } ∧
    ({ instA with errorsMarker := true } : Instance).errorsMarker = true := by
  have h := claim4_load_sessionKey_recovery wEnvSknf ⟨"sys", "User"⟩ (EntityId.single "e1")
    none none ⟨TypeKind.Element, "73"⟩ "resp" instA rfl rfl (by decide) rfl rfl
    (fun i j hj => congrArg Instance.errorsMarker (Except.ok.inj hj).symm)
  exact h.1 "nf" { instA with errorsMarker := true } rfl rfl

/-- C10: `update` resolves the session key for the existing instance with no
recovery path: `SessionKeyNotFoundError` propagates and no PUT (indeed no
request at all) is issued — unlike `load`, which converts the same
condition into a null key and returns the decoded entity. -/
theorem claim10_update_sessionKey_propagates (env : Env) (inst : Instance)
    (eid : EntityId) (tm : TypeModel)
    (hid : inst.id = some eid) (hidt : idValTruthy eid = true)
    (hres : env.resolveTypeReference inst.typeRef = Except.ok tm)
    (hver : verifyTypeE tm = Except.ok ())
    (hne : mergedHeaders env none ≠ []) :
    (∀ s, env.resolveSessionKey tm inst = Except.error (Err.SessionKeyNotFoundError s) →
      update env inst =
        (Except.error (Err.SessionKeyNotFoundError s),
          [Event.resolveType inst.typeRef, Event.resolveKey tm inst])) ∧
    (∀ (env2 : Env) typeRef id tm2 body mig s fin,
      env2.resolveTypeReference typeRef = Except.ok tm2 →
      verifyTypeE tm2 = Except.ok () →
      mergedHeaders env2 none ≠ [] →
      env2.request (loadRequest env2 typeRef id none none tm2) = Except.ok body →
      env2.applyMigrations typeRef (env2.parseInstance body) = Except.ok mig →
      env2.resolveSessionKey tm2 mig = Except.error (Err.SessionKeyNotFoundError s) →
      env2.applyMigrationsForInstance (decryptAndMapToInstance tm2 mig none) = Except.ok fin →
      (load env2 typeRef id none none).1 = Except.ok fin) := by
  constructor
  · intro s hsk
    simp [update, hid, hidt,
      validate_ok env inst.typeRef (expandId eid).1 (some (expandId eid).2) none none tm
        hres hver hne,
      callResolveKey, M.bind, hsk]
  · intro env2 typeRef id tm2 body mig s fin hres2 hver2 hne2 hreq2 hmig2 hsk2 hfin2
    exact load_sessionKeyNotFound env2 typeRef id none none tm2 body mig fin s
      hres2 hver2 hne2 hreq2 hmig2 hsk2 hfin2

/-- C10 witness: at a concrete environment, `update` propagates the
`SessionKeyNotFoundError` and the log shows no request was issued. -/
theorem claim10_witness :
    update wEnvSknf instA =
      (Except.error (Err.SessionKeyNotFoundError "nf"),
        [Event.resolveType ⟨"sys", "User"⟩,
          Event.resolveKey ⟨TypeKind.Element, "73"⟩ instA]) := by
  have h := claim10_update_sessionKey_propagates wEnvSknf instA (EntityId.single "e1")
    ⟨TypeKind.Element, "73"⟩ rfl rfl rfl rfl (by decide)
  exact h.1 "nf" rfl

/-- The GET request a `loadMultiple` chunk issues (derived from
`validate_ok`). -/
def multipleRequest (env : Env) (typeRef : TypeRef) (listId : Option String)
    (tm : TypeModel) (c : List String) : Request :=
  ⟨appendIdSegment (appendIdSegment (typeRefToPath typeRef) listId) none,
    HttpMethod.GET, [("ids", String.intercalate "," c)],
    setParam (mergedHeaders env none) "v" tm.version, none, some MediaType.Json⟩

/-- Shared lemma: the bulk decode pipeline succeeds, one entity per raw
instance, issuing no network request, whenever migrations succeed and key
resolution only ever fails with `SessionKeyNotFoundError`. -/
theorem handleLoad_benign (env : Env) (typeRef : TypeRef) (tm : TypeModel)
    (parsed : List Instance)
    (hres : env.resolveTypeReference typeRef = Except.ok tm)
    (hsk : ∀ i, (∃ k, env.resolveSessionKey tm i = Except.ok k) ∨
      (∃ s, env.resolveSessionKey tm i = Except.error (Err.SessionKeyNotFoundError s)))
    (hmi : ∀ i, ∃ j, env.applyMigrationsForInstance i = Except.ok j)
    (hmr : ∀ i, ∃ j, env.applyMigrations typeRef i = Except.ok j) :
    ∃ es log, handleLoadMultipleResult env typeRef parsed = (Except.ok es, log) ∧
      es.length = parsed.length ∧ requestsOf log = [] := by
  obtain ⟨pre, log1, hpre, hlog1⟩ :
      ∃ pre log1,
        (if typeRef = PushIdentifierTypeRef then
          promiseMap parsed (fun inst => callMigrateRaw env typeRef inst)
        else M.pure parsed) = (Except.ok pre, log1) ∧ requestsOf log1 = [] := by
    by_cases hpi : typeRef = PushIdentifierTypeRef
    · obtain ⟨ys, log1, hmap, _, hlog⟩ :=
        promiseMap_ok_with (fun inst => callMigrateRaw env typeRef inst)
          (fun _ _ => True) (fun _ => []) parsed
          (fun a _ => by
            obtain ⟨j, hj⟩ := hmr a
            exact ⟨j, [Event.migrateRaw typeRef a], by simp [callMigrateRaw, hj], trivial, rfl⟩)
      refine ⟨ys, log1, by rw [if_pos hpi]; exact hmap, ?_⟩
      rw [hlog, flatten_map_nil]
    · exact ⟨parsed, [], by simp [hpi, M.pure], rfl⟩
  obtain ⟨es, log2, hmap2, hfa2, hlog2⟩ :=
    promiseMap_ok_with
      (fun inst =>
        M.bind (M.catchOnly Err.isSessionKeyNotFound
          (M.bind (callResolveKey env tm inst) fun k => M.pure (some k))
          (fun _ => M.pure none)) fun sk =>
        callMigrateInstance env (decryptAndMapToInstance tm inst sk))
      (fun _ _ => True) (fun _ => []) parsed
      (fun a _ => by
        rcases hsk a with ⟨k, hk⟩ | ⟨s, hs⟩
        · obtain ⟨j, hj⟩ := hmi (decryptAndMapToInstance tm a (some k))
          refine ⟨j, [Event.resolveKey tm a,
            Event.migrateInstance (decryptAndMapToInstance tm a (some k))], ?_, trivial, rfl⟩
          simp [M.catchOnly, M.catchAll, M.bind, M.pure, callResolveKey,
            callMigrateInstance, hk, hj]
        · obtain ⟨j, hj⟩ := hmi (decryptAndMapToInstance tm a none)
          refine ⟨j, [Event.resolveKey tm a,
            Event.migrateInstance (decryptAndMapToInstance tm a none)], ?_, trivial, rfl⟩
          simp [M.catchOnly, M.catchAll, M.bind, M.pure, M.throwE, callResolveKey,
            callMigrateInstance, hs, hj, Err.isSessionKeyNotFound])
  refine ⟨es, [Event.resolveType typeRef] ++ (log1 ++ log2), ?_, ?_, ?_⟩
  · show handleLoadMultipleResult env typeRef parsed =
      (Except.ok es, [Event.resolveType typeRef] ++ (log1 ++ log2))
    unfold handleLoadMultipleResult callResolveType
    rw [hres]
    simp only [M.bind_ok]
    rw [hpre]
    simp only [M.bind_ok]
    rw [hmap2]
  · exact (List.Forall₂.length_eq hfa2).symm
  · rw [requestsOf_append, requestsOf_append, requestsOf_cons_resolveType,
      requestsOf_nil, hlog1, hlog2, flatten_map_nil]
    rfl

/-- C3: `loadMultiple` with N ids and chunk limit K issues exactly
`ceil(N/K)` GET requests, one per input-order chunk, each carrying the
comma-joined `ids` of its chunk and all sharing the one prepared path and
header set; the result is the chunk-major concatenation of the per-chunk
decoded entities and contains exactly N entities. -/
theorem claim3_loadMultiple_chunks (env : Env) (typeRef : TypeRef) (listId : Option String)
    (elementIds : List String) (tm : TypeModel) (bodyF : List String → String)
    (hK : 0 < env.loadMultipleLimit)
    (hres : env.resolveTypeReference typeRef = Except.ok tm)
    (hver : verifyTypeE tm = Except.ok ())
    (hne : mergedHeaders env none ≠ [])
    (hbody : ∀ c ∈ splitInChunks env.loadMultipleLimit elementIds,
      env.request (multipleRequest env typeRef listId tm c) = Except.ok (bodyF c))
    (hplen : ∀ c ∈ splitInChunks env.loadMultipleLimit elementIds,
      (env.parseInstanceList (bodyF c)).length = c.length)
    (hsk : ∀ i, (∃ k, env.resolveSessionKey tm i = Except.ok k) ∨
      (∃ s, env.resolveSessionKey tm i = Except.error (Err.SessionKeyNotFoundError s)))
    (hmi : ∀ i, ∃ j, env.applyMigrationsForInstance i = Except.ok j)
    (hmr : ∀ i, ∃ j, env.applyMigrations typeRef i = Except.ok j) :
    ∃ ess : List (List Instance),
      List.Forall₂ (fun c es => es.length = c.length)
        (splitInChunks env.loadMultipleLimit elementIds) ess ∧
      (loadMultiple env typeRef listId elementIds).1 = Except.ok (flat ess) ∧
      (flat ess).length = elementIds.length ∧
      requestsOf (loadMultiple env typeRef listId elementIds).2 =
        (splitInChunks env.loadMultipleLimit elementIds).map
          (multipleRequest env typeRef listId tm) ∧
      (splitInChunks env.loadMultipleLimit elementIds).length =
        (elementIds.length + env.loadMultipleLimit - 1) / env.loadMultipleLimit := by
  obtain ⟨ess, log, hmap, hfa, hlog⟩ :=
    promiseMap_ok_with
      (fun idChunk =>
        M.bind (callRequest env
          ⟨appendIdSegment (appendIdSegment (typeRefToPath typeRef) listId) none,
            HttpMethod.GET, [("ids", String.intercalate "," idChunk)],
            setParam (mergedHeaders env none) "v" tm.version, none,
            some MediaType.Json⟩) fun json =>
        handleLoadMultipleResult env typeRef (env.parseInstanceList json))
      (fun c es => es.length = c.length)
      (fun c => [multipleRequest env typeRef listId tm c])
      (splitInChunks env.loadMultipleLimit elementIds)
      (fun c hc => by
        obtain ⟨es, lg, hh, hlen2, hreqs⟩ := handleLoad_benign env typeRef tm
          (env.parseInstanceList (bodyF c)) hres hsk hmi hmr
        refine ⟨es, Event.req (multipleRequest env typeRef listId tm c) :: lg, ?_, ?_, ?_⟩
        · have hb := hbody c hc
          rw [multipleRequest] at hb
          unfold callRequest
          dsimp only
          rw [hb]
          simp only [M.bind_ok]
          rw [hh]
          simp [multipleRequest]
        · dsimp only
          rw [hlen2]
          exact hplen c hc
        · simp [hreqs])
  have hlmEq : loadMultiple env typeRef listId elementIds =
      (Except.ok (flat ess), [Event.resolveType typeRef] ++ log) := by
    unfold loadMultiple
    rw [validate_ok env typeRef listId none none none tm hres hver hne]
    simp only [M.bind_ok]
    rw [hmap]
    simp only [M.bind_ok]
    simp [M.pure]
  refine ⟨ess, hfa, ?_, ?_, ?_,
    splitInChunks_length env.loadMultipleLimit hK elementIds⟩
  · rw [hlmEq]
  · have h1 := flatten_length_eq_of_forall₂ hfa
    show ess.flatten.length = elementIds.length
    rw [h1, splitInChunks_flatten]
  · rw [hlmEq]
    show requestsOf ([Event.resolveType typeRef] ++ log) = _
    rw [requestsOf_append, requestsOf_cons_resolveType, requestsOf_nil, hlog,
      flatten_map_singleton]
    rfl

/-- An environment whose list endpoint returns two instances per chunk. -/
def wEnvLM : Env := { wEnv with parseInstanceList := fun _ => [instB, instB] }

/-- C3 witness: four ids with chunk limit 2 give two GET requests of two ids
each and four decoded entities. -/
theorem claim3_witness :
    ∃ ess : List (List Instance),
      List.Forall₂ (fun c es => es.length = c.length)
        (splitInChunks wEnvLM.loadMultipleLimit ["a", "b", "c", "d"]) ess ∧
      (loadMultiple wEnvLM ⟨"tutanota", "Mail"⟩ (some "L1") ["a", "b", "c", "d"]).1 =
        Except.ok (flat ess) ∧
      (flat ess).length = (["a", "b", "c", "d"] : List String).length ∧
      requestsOf (loadMultiple wEnvLM ⟨"tutanota", "Mail"⟩ (some "L1") ["a", "b", "c", "d"]).2 =
        (splitInChunks wEnvLM.loadMultipleLimit ["a", "b", "c", "d"]).map
          (multipleRequest wEnvLM ⟨"tutanota", "Mail"⟩ (some "L1") ⟨TypeKind.ListElement, "5"⟩) ∧
      (splitInChunks wEnvLM.loadMultipleLimit ["a", "b", "c", "d"]).length =
        ((["a", "b", "c", "d"] : List String).length + wEnvLM.loadMultipleLimit - 1) /
          wEnvLM.loadMultipleLimit :=
  claim3_loadMultiple_chunks wEnvLM ⟨"tutanota", "Mail"⟩ (some "L1") ["a", "b", "c", "d"]
    ⟨TypeKind.ListElement, "5"⟩ (fun _ => "resp") (by decide) rfl rfl (by decide)
    (fun c _ => rfl) (by decide)
    (fun i => Or.inl ⟨7, rfl⟩) (fun i => ⟨i, rfl⟩) (fun i => ⟨i, rfl⟩)

/-- Follows the claim's words (C1), not the source: the outcome of one
`setupMultiple` chunk as an explicit per-chunk result — generated ids,
recorded errors, recorded failed instances. -/
structure ChunkOutcome where
  ids : List String
  errors : List Err
  failed : List Instance

/-- Result view of encrypting every chunk member with a fresh owner key
(first failure aborts, as the awaited `promiseMap` does). -/
def specEncryptAll (env : Env) (tm : TypeModel) : List Instance → Except Err (List Instance)
  | [] => Except.ok []
  | i :: rest =>
    match env.encryptAndMapToLiteral tm i (env.setNewOwnerEncSessionKey tm i) with
    | Except.ok w => (specEncryptAll env tm rest).map (fun ws => w :: ws)
    | Except.error e => Except.error e

/-- The POST request a `setupMultiple` chunk issues. -/
def setupMultipleRequest (env : Env) (path : String) (headers : Params)
    (chunk : List Instance) (encs : List Instance) : Request :=
  ⟨path, HttpMethod.POST, [("count", toString chunk.length)], headers,
    some (env.stringifyList encs), some MediaType.Json⟩

/-- Result view of one chunk's batched attempt: encrypt all, POST with the
`count` parameter, parse the returned ids. -/
def specBatchPost (env : Env) (tm : TypeModel) (path : String) (headers : Params)
    (chunk : List Instance) : Except Err (List String) :=
  match specEncryptAll env tm chunk with
  | Except.error e => Except.error e
  | Except.ok encs =>
    match env.request (setupMultipleRequest env path headers chunk encs) with
    | Except.error e => Except.error e
    | Except.ok ret => Except.ok (env.parseGeneratedIds ret)

/-- Follows the claim's words (C1): per-chunk failure policy.  A successful
batched POST yields this chunk's ids and no failures.  A
`PayloadTooLargeError` retries every instance of the chunk individually via
`setup`, each retry independently caught, recording its error and its failed
instance, keeping the ids of the retries that succeeded.  Any other failure
records the raised error once and every instance of the chunk as failed. -/
def specChunkOutcome (env : Env) (listId : Option String) (tm : TypeModel)
    (path : String) (headers : Params) (chunk : List Instance) : ChunkOutcome :=
  match specBatchPost env tm path headers chunk with
  | Except.ok ids => ⟨ids, [], []⟩
  | Except.error e =>
    if e.isPayloadTooLarge then
      ⟨chunk.filterMap (fun i => match (setup env listId i none).1 with
          | Except.ok id => some id
          | Except.error _ => none),
        chunk.filterMap (fun i => match (setup env listId i none).1 with
          | Except.error e2 => some e2
          | Except.ok _ => none),
        chunk.filterMap (fun i => match (setup env listId i none).1 with
          | Except.error _ => some i
          | Except.ok _ => none)⟩
    else ⟨[], [e], chunk⟩

theorem promiseMap_encrypt_fst (env : Env) (tm : TypeModel) :
    ∀ chunk : List Instance,
      (promiseMap chunk (fun e =>
        M.bind (callNewOwnerKey env tm e) fun sk => callEncrypt env tm e sk)).1 =
      specEncryptAll env tm chunk := by
  intro chunk
  induction chunk with
  | nil => rfl
  | cons i rest ih =>
    show (M.bind _ _).1 = _
    rw [M.bind_fst]
    have hhead : ((M.bind (callNewOwnerKey env tm i) fun sk => callEncrypt env tm i sk) : M Instance).1 =
        env.encryptAndMapToLiteral tm i (env.setNewOwnerEncSessionKey tm i) := rfl
    rw [hhead]
    cases henc : env.encryptAndMapToLiteral tm i (env.setNewOwnerEncSessionKey tm i) with
    | error e => simp [specEncryptAll, henc]
    | ok w =>
      simp only [M.bind_fst]
      rw [ih]
      cases hrest : specEncryptAll env tm rest with
      | error e => simp [specEncryptAll, henc, hrest, Except.map]
      | ok ws => simp [specEncryptAll, henc, hrest, M.pure, Except.map]

theorem setupFallback_fst (env : Env) (listId : Option String) :
    ∀ (chunk : List Instance) (acc : List Err × List Instance),
      (setupFallback env listId chunk acc).1 =
        Except.ok (chunk.map (fun i => match (setup env listId i none).1 with
            | Except.ok id => some id
            | Except.error _ => none),
          (acc.1 ++ chunk.filterMap (fun i => match (setup env listId i none).1 with
            | Except.error e2 => some e2
            | Except.ok _ => none),
           acc.2 ++ chunk.filterMap (fun i => match (setup env listId i none).1 with
            | Except.error _ => some i
            | Except.ok _ => none))) := by
  intro chunk
  induction chunk with
  | nil => intro acc; simp [setupFallback, M.pure]
  | cons i rest ih =>
    intro acc
    show (M.bind (setupFallbackSingle env listId i acc) _).1 = _
    rw [M.bind_fst]
    cases hsetup : (setup env listId i none).1 with
    | ok id =>
      have hra : (setupFallbackSingle env listId i acc).1 = Except.ok (some id, acc) := by
        simp [setupFallbackSingle, M.catchAll_fst, M.bind_fst, hsetup, M.pure]
      rw [hra]
      simp only [M.bind_fst]
      rw [ih acc]
      simp [M.pure, List.filterMap_cons, List.map_cons, hsetup]
    | error e =>
      have hra : (setupFallbackSingle env listId i acc).1 =
          Except.ok (none, (acc.1 ++ [e], acc.2 ++ [i])) := by
        simp [setupFallbackSingle, M.catchAll_fst, M.bind_fst, hsetup, M.pure]
      rw [hra]
      simp only [M.bind_fst]
      rw [ih (acc.1 ++ [e], acc.2 ++ [i])]
      simp [M.pure, List.filterMap_cons, List.map_cons, hsetup, List.append_assoc]

theorem setup_ok_nonempty (env : Env) (listId : Option String) (inst : Instance)
    (hgid : ∀ s, (env.parseGeneratedId s).isEmpty = false) :
    ∀ id, (setup env listId inst none).1 = Except.ok id → id.isEmpty = false := by
  intro id h
  unfold setup at h
  simp only [M.bind_fst, M.pure] at h
  repeat' split at h
  all_goals try exact Except.noConfusion h
  have h2 := Except.ok.inj h
  rw [← h2]
  exact hgid _

theorem filterBoolean_map_setup (env : Env) (listId : Option String)
    (hgid : ∀ s, (env.parseGeneratedId s).isEmpty = false) :
    ∀ chunk : List Instance,
      filterBoolean (chunk.map fun i => match (setup env listId i none).1 with
        | Except.ok id => some id
        | Except.error _ => none) =
      chunk.filterMap (fun i => match (setup env listId i none).1 with
        | Except.ok id => some id
        | Except.error _ => none) := by
  intro chunk
  induction chunk with
  | nil => rfl
  | cons i rest ih =>
    simp only [List.map_cons, List.filterMap_cons]
    cases hsetup : (setup env listId i none).1 with
    | ok id =>
      have hne := setup_ok_nonempty env listId i hgid id hsetup
      simp only [filterBoolean, List.filterMap_cons] at ih ⊢
      simp [hne, ih]
    | error e =>
      simp only [filterBoolean, List.filterMap_cons] at ih ⊢
      simp [ih]

theorem setupChunk_fst (env : Env) (listId : Option String) (tm : TypeModel)
    (path : String) (headers : Params)
    (hgid : ∀ s, (env.parseGeneratedId s).isEmpty = false)
    (chunk : List Instance) (acc : List Err × List Instance) :
    (setupChunk env listId tm path headers chunk acc).1 =
      Except.ok ((specChunkOutcome env listId tm path headers chunk).ids,
        (acc.1 ++ (specChunkOutcome env listId tm path headers chunk).errors,
         acc.2 ++ (specChunkOutcome env listId tm path headers chunk).failed)) := by
  unfold setupChunk
  rw [M.catchAll_fst]
  have htry : (M.bind (promiseMap chunk fun e =>
      M.bind (callNewOwnerKey env tm e) fun sk => callEncrypt env tm e sk) fun encryptedEntities =>
      M.bind (callRequest env ⟨path, HttpMethod.POST, [("count", toString chunk.length)], headers,
        some (env.stringifyList encryptedEntities), some MediaType.Json⟩) fun ret =>
      M.pure (env.parseGeneratedIds ret, acc)).1 =
      (match specBatchPost env tm path headers chunk with
       | Except.ok ids => Except.ok (ids, acc)
       | Except.error e => Except.error e) := by
    rw [M.bind_fst, promiseMap_encrypt_fst]
    cases henc : specEncryptAll env tm chunk with
    | error e => simp [specBatchPost, henc]
    | ok encs =>
      simp only [M.bind_fst, callRequest]
      cases hreq : env.request (setupMultipleRequest env path headers chunk encs) with
      | error e =>
        rw [setupMultipleRequest] at hreq
        simp [specBatchPost, henc, setupMultipleRequest, hreq]
      | ok ret =>
        rw [setupMultipleRequest] at hreq
        simp [specBatchPost, henc, setupMultipleRequest, hreq, M.pure]
  rw [htry]
  cases hbp : specBatchPost env tm path headers chunk with
  | ok ids => simp [specChunkOutcome, hbp]
  | error e =>
    by_cases hptl : e.isPayloadTooLarge
    · simp only [hptl, if_true]
      simp only [M.bind_fst]
      rw [setupFallback_fst]
      simp only [M.pure]
      simp [specChunkOutcome, hbp, hptl, filterBoolean_map_setup env listId hgid chunk]
    · simp only [hptl, if_false]
      simp [specChunkOutcome, hbp, hptl, M.pure]

theorem setupChunks_fst (env : Env) (listId : Option String) (tm : TypeModel)
    (path : String) (headers : Params)
    (hgid : ∀ s, (env.parseGeneratedId s).isEmpty = false) :
    ∀ (chunks : List (List Instance)) (acc : List Err × List Instance),
      (setupChunks env listId tm path headers chunks acc).1 =
        Except.ok (chunks.map (fun c => (specChunkOutcome env listId tm path headers c).ids),
          (acc.1 ++ (chunks.map
              (fun c => (specChunkOutcome env listId tm path headers c).errors)).flatten,
           acc.2 ++ (chunks.map
              (fun c => (specChunkOutcome env listId tm path headers c).failed)).flatten)) := by
  intro chunks
  induction chunks with
  | nil => intro acc; simp [setupChunks, M.pure]
  | cons c cs ih =>
    intro acc
    show (M.bind (setupChunk env listId tm path headers c acc) _).1 = _
    rw [M.bind_fst, setupChunk_fst env listId tm path headers hgid c acc]
    simp only [M.bind_fst]
    rw [ih]
    simp [M.pure, List.append_assoc]

/-- Follows the claim's words (C1): the whole-call result as a functional
aggregation of per-chunk outcomes.  If any failure was recorded anywhere,
the call fails with one `SetupMultipleError` carrying all accumulated errors
and all failed instances and returns no ids (successes of fully successful
chunks are discarded); otherwise it returns the chunk-order concatenation of
per-chunk generated ids. -/
def setupMultipleSpec (env : Env) (listId : Option String) (tm : TypeModel)
    (instances : List Instance) : Except Err (List String) :=
  match instances with
  | [] => Except.ok []
  | inst0 :: _ =>
    let path := appendIdSegment (appendIdSegment (typeRefToPath inst0.typeRef) listId) none
    let headers := setParam (mergedHeaders env none) "v" tm.version
    let outs := (splitInChunks env.postMultipleLimit instances).map
      (specChunkOutcome env listId tm path headers)
    let allErrors := (outs.map ChunkOutcome.errors).flatten
    let allFailed := (outs.map ChunkOutcome.failed).flatten
    if allErrors.isEmpty then Except.ok (flat (outs.map ChunkOutcome.ids))
    else Except.error (Err.SetupMultipleError "Setup multiple entities failed" allErrors allFailed)

theorem setupMultiple_final_step (E : List Err) (F : List Instance)
    (ids : List (List String)) (msg : String) :
    ((if E.length ≠ 0 then (M.throwE (Err.SetupMultipleError msg E F) : M (List String))
      else M.pure (flat ids)) : M (List String)).1 =
    (if E.isEmpty then Except.ok (flat ids)
     else Except.error (Err.SetupMultipleError msg E F)) := by
  cases E with
  | nil => simp [M.pure, M.throwE]
  | cons e es => simp [M.pure, M.throwE]

/-- C1: `setupMultiple`'s result equals the claim's functional aggregation
of per-chunk outcomes (`specChunkOutcome` spells out the per-chunk policy:
batched POST; on `PayloadTooLargeError` a per-instance `setup` retry with
each failure recorded individually; on any other failure the error recorded
once with the whole chunk failed; `setupMultipleSpec` spells out the
aggregate: any recorded failure raises one `SetupMultipleError` with all
errors and all failed instances and no ids, otherwise the chunk-order
concatenation of generated ids is returned). -/
theorem claim1_setupMultiple_failure_policy (env : Env) (listId : Option String)
    (inst0 : Instance) (rest : List Instance) (tm : TypeModel)
    (hres : env.resolveTypeReference inst0.typeRef = Except.ok tm)
    (hver : verifyTypeE tm = Except.ok ())
    (hne : mergedHeaders env none ≠ [])
    (hpair : (checkListIdPairing tm listId).1 = Except.ok ())
    (hgid : ∀ s, (env.parseGeneratedId s).isEmpty = false) :
    (setupMultiple env listId (inst0 :: rest)).1 =
      setupMultipleSpec env listId tm (inst0 :: rest) := by
  unfold setupMultiple setupMultipleSpec
  dsimp only
  rw [validate_ok env inst0.typeRef listId none none none tm hres hver hne]
  simp only [M.bind_fst]
  rw [hpair]
  rw [setupChunks_fst env listId tm
    (appendIdSegment (appendIdSegment (typeRefToPath inst0.typeRef) listId) none)
    (setParam (mergedHeaders env none) "v" tm.version) hgid
    (splitInChunks env.postMultipleLimit (inst0 :: rest)) ([], [])]
  simp only [List.nil_append]
  rw [setupMultiple_final_step]
  simp only [List.map_map, Function.comp_def]

/-- C1 witness: three `ListElement` instances with chunk limit 2 go out as
two batched POSTs; no failure is recorded, so the concatenated per-chunk
generated ids are returned. -/
theorem claim1_witness :
    (setupMultiple wEnv (some "L1") [instB, instB, instB]).1 =
      setupMultipleSpec wEnv (some "L1") ⟨TypeKind.ListElement, "5"⟩ [instB, instB, instB] :=
  claim1_setupMultiple_failure_policy wEnv (some "L1") instB [instB, instB]
    ⟨TypeKind.ListElement, "5"⟩ rfl rfl (by decide) rfl (fun _ => rfl)

/-- C5 witness: a caller-supplied header overriding an auth header wins, at a
concrete call. -/
theorem claim5_witness :
    lookupParam [("X", "1"), ("accessToken", "tok2"), ("v", "73")] "accessToken" = some "tok2" := by
  have h := claim5_header_merge_and_auth_gate
    { wEnv with authHeaders := [("accessToken", "tok"), ("X", "1")] }
    ⟨"sys", "User"⟩ none none none (some [("accessToken", "tok2")])
    ⟨TypeKind.Element, "73"⟩ rfl rfl (by decide) (by decide)
  exact h.2.2.1
    ⟨"/rest/sys/user", [], [("X", "1"), ("accessToken", "tok2"), ("v", "73")],
      ⟨TypeKind.Element, "73"⟩⟩
    rfl "accessToken" "tok2" (by decide) rfl

end ERC
